import Mathlib

/-!
Shallow embedding of the order/rate core of the exchange-bot repository
(directories `GOTOVO` and `GOTOVO_FIXED`).  Python floats are modelled as
exact rationals (`ℚ`); JSON documents become Lean structures; file I/O
becomes explicit state passing over a small file-system model that records
whether writes succeed.  Each definition is translated from the named
Python function.
-/

namespace Bot

/-- The four-rate set (`rates` object of the config document):
`ltc_usd_buy`, `ltc_usd_sell`, `usd_rub_buy`, `usd_rub_sell`. -/
structure Rates where
  ltc_usd_buy : ℚ
  ltc_usd_sell : ℚ
  usd_rub_buy : ℚ
  usd_rub_sell : ℚ
  deriving DecidableEq, Repr

/-- `GOTOVO/bot/models/rates.py`, `calculate_ltc_price_in_rubles`:
price of `ltc_amount` LTC in rubles for the given direction. -/
def calculate_ltc_price_in_rubles (ltc_amount : ℚ) (is_buy : Bool)
    (rates : Rates) : ℚ :=
  if is_buy then
    ltc_amount * rates.ltc_usd_buy * rates.usd_rub_buy
  else
    ltc_amount * rates.ltc_usd_sell * rates.usd_rub_sell

/-- `GOTOVO/bot/models/rates.py`, `calculate_ltc_amount_from_rubles`:
LTC obtainable for `rub_amount` rubles for the given direction. -/
def calculate_ltc_amount_from_rubles (rub_amount : ℚ) (is_buy : Bool)
    (rates : Rates) : ℚ :=
  if is_buy then
    rub_amount / (rates.ltc_usd_buy * rates.usd_rub_buy)
  else
    rub_amount / (rates.ltc_usd_sell * rates.usd_rub_sell)

/-- `GOTOVO/bot/models/rates.py`, `calculate_spread`: spread (profit)
for a transaction of `rub_amount` rubles in the given direction. -/
def calculate_spread (rub_amount : ℚ) (is_buy : Bool) (rates : Rates) : ℚ :=
  let ltc_amount := calculate_ltc_amount_from_rubles rub_amount is_buy rates
  let buy_price :=
    if is_buy then ltc_amount * rates.ltc_usd_sell * rates.usd_rub_sell
    else ltc_amount * rates.ltc_usd_buy * rates.usd_rub_buy
  let sell_price :=
    if is_buy then ltc_amount * rates.ltc_usd_buy * rates.usd_rub_buy
    else ltc_amount * rates.ltc_usd_sell * rates.usd_rub_sell
  |sell_price - buy_price|

/-- The rate set used by the spec's worked scenario (also the repository's
`DEFAULT_CONFIG` rates). -/
def scenarioRates : Rates :=
  { ltc_usd_buy := 80, ltc_usd_sell := 78
    usd_rub_buy := 73.5, usd_rub_sell := 72 }

/-- One entry of the new-style referral tier table
(`config["referral"]["levels"]`).  `max = none` models the
`float("inf")` sentinel of the top tier. -/
structure ReferralLevel where
  min : ℚ
  max : Option ℚ
  percentage : ℚ
  deriving DecidableEq, Repr

/-- The referral section of a config document.  `levels` is the
new-style list of `{min, max, percentage}` ranges; `legacy` is the
old-style `referral_levels` dict (keys parsed to ints); `missing`
is a document with neither key. -/
inductive ReferralConfig where
  | levels (levels : List ReferralLevel)
  | legacy (levels : List (ℕ × ℚ))
  | missing
  deriving DecidableEq, Repr

/-- The range test `level["min"] <= referral_count <= level["max"]`
from `get_referral_percentage`; a `none` upper bound behaves like
`float("inf")` (always satisfied). -/
def levelMatches (level : ReferralLevel) (referral_count : ℕ) : Bool :=
  decide (level.min ≤ (referral_count : ℚ)) &&
    (match level.max with
     | none => true
     | some m => decide ((referral_count : ℚ) ≤ m))

/-- The `for level in levels` scan of `get_referral_percentage`
(new structure): first matching tier wins. -/
def findLevel : List ReferralLevel → ℕ → Option ℚ
  | [], _ => none
  | level :: rest, n =>
    if levelMatches level n then some level.percentage else findLevel rest n

/-- The old-structure scan of `get_referral_percentage`: walk the
sorted `(level, value)` pairs keeping the last value whose level is
`≤ referral_count`, stopping at the first larger level (`break`). -/
def legacyScan : List (ℕ × ℚ) → ℕ → ℚ → ℚ
  | [], _, acc => acc
  | (level, value) :: rest, n, acc =>
    if level ≤ n then legacyScan rest n value else acc

/-- `GOTOVO/bot/config/config.py`, `get_referral_percentage`: referral
percentage for a referral count, against the given referral section of
the loaded config.  Note the new-structure branch returns
`percentage / 100.0` (a decimal fraction), and the default floor is
`0.05`. -/
def get_referral_percentage (cfg : ReferralConfig) (referral_count : ℕ) : ℚ :=
  match cfg with
  | .levels ls =>
    match findLevel ls referral_count with
    | some p => p / 100
    | none => 0.05
  | .legacy ls =>
    legacyScan (ls.mergeSort fun a b => decide (a.1 ≤ b.1)) referral_count 0
  | .missing => 0.05

/-- The referral tiers of `DEFAULT_CONFIG` in `GOTOVO/bot/config/config.py`. -/
def DEFAULT_REFERRAL_LEVELS : List ReferralLevel :=
  [{ min := 1, max := some 10, percentage := 10 },
   { min := 11, max := some 25, percentage := 12.5 },
   { min := 26, max := some 50, percentage := 15 },
   { min := 51, max := some 100, percentage := 17.5 },
   { min := 101, max := none, percentage := 20 }]

/-- A user record (`data/users.json` entry), restricted to the fields
the referral payout touches.  Absent JSON keys are modelled by the
defaults the code supplies via `.get`: `referrals` defaults to `[]`
and `balance` to `0`; `referrer_id = none` models both an absent key
and a falsy (`0`/null) value read by `user.get("referrer_id")`. -/
structure User where
  username : String
  referrer_id : Option ℕ
  referrals : List ℕ
  balance : ℚ
  deriving DecidableEq, Repr

/-- The users document: stringified id → user record, modelled as an
association list keyed by the numeric id. -/
abbrev Users := List (ℕ × User)

/-- `GOTOVO/bot/database.py`, `get_user`: lookup by id. -/
def get_user (users : Users) (user_id : ℕ) : Option User :=
  (users.find? fun p => p.1 = user_id).map (·.2)

/-- `GOTOVO/bot/database.py`, `save_user`: dict assignment
`users[str(user_id)] = user_data` — replace the existing entry or
append a new one. -/
def save_user (users : Users) (user_id : ℕ) (user_data : User) : Users :=
  if users.any (fun p => p.1 = user_id) then
    users.map fun p => if p.1 = user_id then (user_id, user_data) else p
  else
    users ++ [(user_id, user_data)]

/-- `GOTOVO_FIXED/bot/utils/helpers.py`, `process_referral_bonus`: pay
the referral bonus for a completed order of `user_id` with the given
`spread`.  The users document and the referral config (read through
`get_referral_percentage`) are passed explicitly; the messaging side
effects are omitted.  Returns the updated users document. -/
def process_referral_bonus (users : Users) (cfg : ReferralConfig)
    (user_id : ℕ) (spread : ℚ) : Users :=
  match get_user users user_id with
  | none => users
  | some user =>
    match user.referrer_id with
    | none => users
    | some referrer_id =>
      if referrer_id = 0 then users  -- `if not referrer_id` is also true for 0
      else
        match get_user users referrer_id with
        | none => users
        | some referrer =>
          let referral_count := referrer.referrals.length
          let bonus_percentage := get_referral_percentage cfg referral_count
          if bonus_percentage ≤ 0 then users
          else
            let bonus_amount := (spread * bonus_percentage) / 100
            if bonus_amount ≤ 0 then users
            else
              save_user users referrer_id
                { referrer with balance := referrer.balance + bonus_amount }

/-- Concrete users document for the referral payout scenario: user 2
(the order owner) was referred by user 1, who has exactly one
qualifying referral and balance 0. -/
def bonusScenarioUsers : Users :=
  [(1, { username := "referrer", referrer_id := none,
         referrals := [2], balance := 0 }),
   (2, { username := "owner", referrer_id := some 1,
         referrals := [], balance := 0 })]

/-- The `order_type` field: `"buy"` or `"sell"`. -/
inductive OrderType where
  | buy
  | sell
  deriving DecidableEq, Repr

/-- The `status` field: `"active"`, `"in_progress"` or `"completed"`. -/
inductive OrderStatus where
  | active
  | in_progress
  | completed
  deriving DecidableEq, Repr

/-- Little-endian decimal digits of `n`, with `fuel ≥ n` as termination
fuel (`0` yields `[]`, matching the padding below). -/
def decimalDigitsAux : ℕ → ℕ → List ℕ
  | 0, _ => []
  | _ + 1, 0 => []
  | fuel + 1, n + 1 => ((n + 1) % 10) :: decimalDigitsAux fuel ((n + 1) / 10)

/-- Little-endian decimal digits of `n`. -/
def decimalDigits (n : ℕ) : List ℕ :=
  decimalDigitsAux n n

/-- Value of a little-endian decimal digit list. -/
def digitsVal : List ℕ → ℕ
  | [] => 0
  | d :: rest => d + 10 * digitsVal rest

/-- `GOTOVO/bot/database.py`, `create_order`'s
`order_number = f"Z{order_id:05d}"`: the prefix `Z` followed by the
decimal digits of `order_id` left-padded with zeros to width 5. -/
def orderNumberOf (order_id : ℕ) : String :=
  let digits := decimalDigits order_id
  let padded := digits ++ List.replicate (5 - digits.length) 0
  String.mk ('Z' :: padded.reverse.map Nat.digitChar)

/-- An order record (`data/orders.json` entry). -/
structure Order where
  id : ℕ
  order_number : String
  user_id : ℕ
  username : String
  order_type : OrderType
  amount : ℚ
  status : OrderStatus
  created_at : ℕ
  updated_at : ℕ
  operator_id : Option ℕ
  operator_username : Option String
  completed_at : Option ℕ
  spread : Option ℚ
  deriving DecidableEq, Repr

/-- The orders document (`data/orders.json`): order list plus the
`next_id` allocator. -/
structure OrdersData where
  orders : List Order
  next_id : ℕ
  deriving DecidableEq, Repr

/-- The document `init_db` writes when `data/orders.json` is absent. -/
def initOrdersData : OrdersData :=
  { orders := [], next_id := 1 }

/-- A persistence failure of the underlying JSON file write. -/
inductive PersistError where
  | ioError
  deriving DecidableEq, Repr

/-- The orders file plus a flag saying whether writes to it fail
(modelling `json.dump`/`open` raising). -/
structure OrdersFS where
  doc : OrdersData
  failWrites : Bool
  deriving DecidableEq, Repr

/-- `GOTOVO/bot/database.py`, `get_orders`: read the orders document
(the readable-file case; the claims under study exercise no read
failure). -/
def get_orders (fs : OrdersFS) : OrdersData :=
  fs.doc

/-- The underlying `open`/`json.dump` of `save_orders`: fails exactly
when the file system rejects writes. -/
def writeOrdersFile (fs : OrdersFS) (d : OrdersData) : Except PersistError OrdersFS :=
  if fs.failWrites then .error .ioError
  else .ok { doc := d, failWrites := fs.failWrites }

/-- `GOTOVO/bot/database.py`, `save_orders`: the write is wrapped in
`try/except` with `logger.error`; the second component is what the
caller observes — the function always returns normally (`.ok ()`),
even when the underlying write raised. -/
def save_orders (fs : OrdersFS) (orders_data : OrdersData) :
    OrdersFS × Except PersistError Unit :=
  match writeOrdersFile fs orders_data with
  | .ok fs' => (fs', .ok ())
  | .error _ => (fs, .ok ())

/-- The caller-supplied arguments of one `create_order` call (plus the
`datetime.now()` it samples). -/
structure CreateReq where
  user_id : ℕ
  username : String
  order_type : OrderType
  amount : ℚ
  now : ℕ
  deriving DecidableEq, Repr

/-- `GOTOVO/bot/database.py`, `create_order`: allocate `next_id`,
derive the order number, append the new active order and bump
`next_id`. -/
def create_order (fs : OrdersFS) (r : CreateReq) : Order × OrdersFS :=
  let orders_data := get_orders fs
  let order_id := orders_data.next_id
  let order : Order :=
    { id := order_id, order_number := orderNumberOf order_id
      user_id := r.user_id, username := r.username
      order_type := r.order_type, amount := r.amount
      status := .active, created_at := r.now, updated_at := r.now
      operator_id := none, operator_username := none
      completed_at := none, spread := none }
  let new_data : OrdersData :=
    { orders := orders_data.orders ++ [order], next_id := order_id + 1 }
  (order, (save_orders fs new_data).1)

/-- A session: run a sequence of `create_order` calls. -/
def createAll (fs : OrdersFS) : List CreateReq → OrdersFS
  | [] => fs
  | r :: rs => createAll (create_order fs r).2 rs

/-- The orders store at the start of a session: the `init_db` document
on a disk that accepts writes. -/
def initOrdersFS : OrdersFS :=
  { doc := initOrdersData, failWrites := false }

/-- `GOTOVO/bot/database.py`, `get_order`: first order with the id. -/
def get_order (fs : OrdersFS) (order_id : ℕ) : Option Order :=
  (get_orders fs).orders.find? fun o => o.id = order_id

/-- The `updates` dict passed to `update_order`: for each updatable
field, `none` means the key is absent and `some v` means the dict maps
the key to `v`. -/
structure OrderUpdates where
  status : Option OrderStatus
  operator_id : Option (Option ℕ)
  operator_username : Option (Option String)
  completed_at : Option (Option ℕ)
  spread : Option (Option ℚ)
  deriving DecidableEq, Repr

/-- The dict merge `{**order, **updates}` in `update_order`. -/
def mergeUpdates (o : Order) (u : OrderUpdates) : Order :=
  { o with
    status := u.status.getD o.status
    operator_id := u.operator_id.getD o.operator_id
    operator_username := u.operator_username.getD o.operator_username
    completed_at := u.completed_at.getD o.completed_at
    spread := u.spread.getD o.spread }

/-- The `for i, order in enumerate(...)` loop of `update_order`:
replace the first order carrying the id with the merged record (with
`updated_at` stamped to now), returning it as well. -/
def updateFirst (orders : List Order) (order_id : ℕ) (u : OrderUpdates)
    (now : ℕ) : Option Order × List Order :=
  match orders with
  | [] => (none, [])
  | o :: rest =>
    if o.id = order_id then
      let o' := { mergeUpdates o u with updated_at := now }
      (some o', o' :: rest)
    else
      let r := updateFirst rest order_id u now
      (r.1, o :: r.2)

/-- `GOTOVO/bot/database.py`, `update_order`: merge `updates` into the
first order with the id, stamp `updated_at`, save, and return the
updated record; return `none` — with no save — when no order has the
id. -/
def update_order (fs : OrdersFS) (order_id : ℕ) (updates : OrderUpdates)
    (now : ℕ) : Option Order × OrdersFS :=
  let orders_data := get_orders fs
  let r := updateFirst orders_data.orders order_id updates now
  match r.1 with
  | some o' =>
    (some o',
     (save_orders fs { orders := r.2, next_id := orders_data.next_id }).1)
  | none => (none, fs)

/-- Python `round(x, 2)` over exact rationals: round half to even at
two decimal places. -/
def pyRound2 (x : ℚ) : ℚ :=
  let y := x * 100
  let f := ⌊y⌋
  let r := y - (f : ℚ)
  let n : ℤ :=
    if r < 1 / 2 then f
    else if 1 / 2 < r then f + 1
    else if f % 2 = 0 then f else f + 1
  (n : ℚ) / 100

/-- `GOTOVO_FIXED/bot/utils/helpers.py`, `calculate_spread`: spread for
an order, priced against the current rates (passed explicitly in place
of `get_current_rates()`), rounded to two decimal places. -/
def helpers_calculate_spread (amount : ℚ) (order_type : OrderType)
    (rates : Rates) : ℚ :=
  let is_buy := order_type = OrderType.buy
  let actual_rate :=
    if is_buy then rates.ltc_usd_buy * rates.usd_rub_buy
    else rates.ltc_usd_sell * rates.usd_rub_sell
  let our_cost_rate :=
    if is_buy then rates.ltc_usd_sell * rates.usd_rub_sell
    else rates.ltc_usd_buy * rates.usd_rub_buy
  let ltc_amount := amount / actual_rate
  let our_cost := ltc_amount * our_cost_rate
  let spread := if is_buy then amount - our_cost else our_cost - amount
  pyRound2 spread

/-- Failure outcomes of `operator_take_order` (the callback answers
beginning with ❌). -/
inductive TakeError where
  | notFound
  | invalidState
  | updateFailed
  deriving DecidableEq, Repr

/-- Failure outcomes of `operator_complete_order`. -/
inductive CompleteError where
  | notFound
  | invalidState
  | wrongOperator
  | updateFailed
  deriving DecidableEq, Repr

/-- `GOTOVO_FIXED/bot/handlers/operator.py`, `operator_take_order`
(after the operator-permission gate): fetch the order, require status
`active`, then transition it to `in_progress` stamping the operator
fields.  The notification sends are omitted. -/
def operator_take_order (fs : OrdersFS) (order_id operator_id : ℕ)
    (operator_username : String) (now : ℕ) :
    Except TakeError Order × OrdersFS :=
  match get_order fs order_id with
  | none => (.error .notFound, fs)
  | some order =>
    if order.status ≠ .active then (.error .invalidState, fs)
    else
      let updates : OrderUpdates :=
        { status := some .in_progress
          operator_id := some (some operator_id)
          operator_username := some (some operator_username)
          completed_at := none, spread := none }
      let r := update_order fs order_id updates now
      match r.1 with
      | none => (.error .updateFailed, r.2)
      | some updated_order => (.ok updated_order, r.2)

/-- `GOTOVO_FIXED/bot/handlers/operator.py`, `operator_complete_order`
(after the operator-permission gate): fetch the order, require status
`in_progress` and that it is assigned to this operator, compute the
spread from the current rates, and transition it to `completed`
stamping `completed_at` and `spread`.  The notification sends are
omitted. -/
def operator_complete_order (fs : OrdersFS) (order_id operator_id : ℕ)
    (now : ℕ) (rates : Rates) : Except CompleteError Order × OrdersFS :=
  match get_order fs order_id with
  | none => (.error .notFound, fs)
  | some order =>
    if order.status ≠ .in_progress then (.error .invalidState, fs)
    else if order.operator_id ≠ some operator_id then
      (.error .wrongOperator, fs)
    else
      let spread := helpers_calculate_spread order.amount order.order_type rates
      let updates : OrderUpdates :=
        { status := some .completed
          operator_id := none, operator_username := none
          completed_at := some (some now), spread := some (some spread) }
      let r := update_order fs order_id updates now
      match r.1 with
      | none => (.error .updateFailed, r.2)
      | some updated_order => (.ok updated_order, r.2)

/-- A config document (`config.json`), restricted to the sections the
claims touch. -/
structure Config where
  admin_ids : List ℕ
  operator_ids : List ℕ
  rates : Rates
  min_amount : ℚ
  referral : ReferralConfig
  deriving DecidableEq, Repr

/-- `DEFAULT_CONFIG` of `GOTOVO/bot/config/config.py`. -/
def DEFAULT_CONFIG : Config :=
  { admin_ids := [], operator_ids := []
    rates := scenarioRates, min_amount := 1000
    referral := .levels DEFAULT_REFERRAL_LEVELS }

/-- The on-disk state of `config.json`: absent, existing but failing
`json.load` (corrupt/unreadable), or parsing to a document. -/
inductive ConfigFile where
  | absent
  | corrupt
  | good (c : Config)
  deriving DecidableEq, Repr

/-- The config file plus a flag saying whether writes to it fail. -/
structure ConfigFS where
  file : ConfigFile
  failWrites : Bool
  deriving DecidableEq, Repr

/-- The underlying `open`/`json.dump` of `save_config`. -/
def writeConfigFile (fs : ConfigFS) (c : Config) : Except PersistError ConfigFS :=
  if fs.failWrites then .error .ioError
  else .ok { file := .good c, failWrites := fs.failWrites }

/-- `GOTOVO/bot/config/config.py`, `save_config`: the write is wrapped
in `try/except` with `logger.error`; the caller always observes a
normal return (`.ok ()`), even when the underlying write raised. -/
def save_config (config : Config) (fs : ConfigFS) :
    ConfigFS × Except PersistError Unit :=
  match writeConfigFile fs config with
  | .ok fs' => (fs', .ok ())
  | .error _ => (fs, .ok ())

/-- `GOTOVO/bot/config/config.py`, `load_config`: return the parsed
file; on a parse/read failure return the in-memory default without
writing; when the file is absent, persist and return the default. -/
def load_config (fs : ConfigFS) : Config × ConfigFS :=
  match fs.file with
  | .good c => (c, fs)
  | .corrupt => (DEFAULT_CONFIG, fs)
  | .absent => (DEFAULT_CONFIG, (save_config DEFAULT_CONFIG fs).1)

end Bot

/-- C6: for every rate set with all four rates strictly positive, every
amount `x` and every direction, converting a crypto amount to its fiat
value and back with the same direction's rates is the identity. -/
theorem round_trip_crypto_fiat (rates : Bot.Rates) (x : ℚ) (is_buy : Bool)
    (h1 : 0 < rates.ltc_usd_buy) (h2 : 0 < rates.ltc_usd_sell)
    (h3 : 0 < rates.usd_rub_buy) (h4 : 0 < rates.usd_rub_sell) :
    Bot.calculate_ltc_amount_from_rubles
      (Bot.calculate_ltc_price_in_rubles x is_buy rates) is_buy rates = x := by
  cases is_buy <;>
    simp only [Bot.calculate_ltc_amount_from_rubles,
      Bot.calculate_ltc_price_in_rubles, if_true, if_false, Bool.false_eq_true] <;>
    field_simp <;> ring

/-- Witness for C6: the round trip at the scenario rate set, amount 3, buy. -/
theorem round_trip_crypto_fiat_witness :
    0 < Bot.scenarioRates.ltc_usd_buy ∧
    Bot.calculate_ltc_amount_from_rubles
      (Bot.calculate_ltc_price_in_rubles 3 true Bot.scenarioRates) true
      Bot.scenarioRates = 3 :=
  ⟨by norm_num [Bot.scenarioRates],
   round_trip_crypto_fiat Bot.scenarioRates 3 true
     (by norm_num [Bot.scenarioRates]) (by norm_num [Bot.scenarioRates])
     (by norm_num [Bot.scenarioRates]) (by norm_num [Bot.scenarioRates])⟩

/-- C7: with the scenario rates, one LTC prices at 5880 rubles (buy) and
the spread on 5880 rubles (buy) is 264; in general `calculate_spread`
equals the absolute difference between repricing the converted crypto
amount with the requested direction's rates and with the opposite
direction's rates. -/
theorem spread_scenario_and_general :
    Bot.calculate_ltc_price_in_rubles 1 true Bot.scenarioRates = 5880 ∧
    Bot.calculate_spread 5880 true Bot.scenarioRates = 264 ∧
    ∀ (rub : ℚ) (is_buy : Bool) (rates : Bot.Rates),
      Bot.calculate_spread rub is_buy rates =
        |Bot.calculate_ltc_price_in_rubles
            (Bot.calculate_ltc_amount_from_rubles rub is_buy rates) is_buy rates -
          Bot.calculate_ltc_price_in_rubles
            (Bot.calculate_ltc_amount_from_rubles rub is_buy rates) (!is_buy) rates| := by
  refine ⟨by norm_num [Bot.calculate_ltc_price_in_rubles, Bot.scenarioRates], ?_, ?_⟩
  · norm_num [Bot.calculate_spread, Bot.calculate_ltc_amount_from_rubles,
      Bot.scenarioRates]
  · intro rub is_buy rates
    cases is_buy <;>
      simp only [Bot.calculate_spread, Bot.calculate_ltc_price_in_rubles,
        Bot.calculate_ltc_amount_from_rubles, Bool.not_true, Bool.not_false,
        if_true, if_false, Bool.false_eq_true]

/-- C2 counterexample: against the default tier table
`[{1,10,10},{11,25,12.5},{26,50,15},{51,100,17.5},{101,inf,20}]` the
code returns `1/10` (the tier percentage divided by 100) at referral
count 10, not the claimed `10`. -/
theorem referralPercentage_ten_ne_claimed :
    Bot.get_referral_percentage
        (Bot.ReferralConfig.levels Bot.DEFAULT_REFERRAL_LEVELS) 10 = 1 / 10 ∧
      ((1 : ℚ) / 10) ≠ 10 := by
  constructor
  · norm_num [Bot.get_referral_percentage, Bot.findLevel, Bot.levelMatches,
      Bot.DEFAULT_REFERRAL_LEVELS]
  · norm_num

/-- C2 (amended): the function returns the matched tier's percentage
divided by 100 (a decimal fraction), or the 0.05 floor when no tier
matches: 1/10 at count 10, 1/8 at 11, 1/5 at 1000, 1/20 at 0, and in
general, with the default table, the fraction of the unique tier whose
range contains the count. -/
theorem referralPercentage_default_tiers :
    Bot.get_referral_percentage
        (Bot.ReferralConfig.levels Bot.DEFAULT_REFERRAL_LEVELS) 10 = 1 / 10 ∧
    Bot.get_referral_percentage
        (Bot.ReferralConfig.levels Bot.DEFAULT_REFERRAL_LEVELS) 11 = 1 / 8 ∧
    Bot.get_referral_percentage
        (Bot.ReferralConfig.levels Bot.DEFAULT_REFERRAL_LEVELS) 1000 = 1 / 5 ∧
    Bot.get_referral_percentage
        (Bot.ReferralConfig.levels Bot.DEFAULT_REFERRAL_LEVELS) 0 = 1 / 20 ∧
    ∀ n : ℕ,
      Bot.get_referral_percentage
          (Bot.ReferralConfig.levels Bot.DEFAULT_REFERRAL_LEVELS) n =
        if n = 0 then 1 / 20
        else if n ≤ 10 then 1 / 10
        else if n ≤ 25 then 1 / 8
        else if n ≤ 50 then 3 / 20
        else if n ≤ 100 then 7 / 40
        else 1 / 5 := by
  have hgen : ∀ n : ℕ,
      Bot.get_referral_percentage
          (Bot.ReferralConfig.levels Bot.DEFAULT_REFERRAL_LEVELS) n =
        if n = 0 then 1 / 20
        else if n ≤ 10 then 1 / 10
        else if n ≤ 25 then 1 / 8
        else if n ≤ 50 then 3 / 20
        else if n ≤ 100 then 7 / 40
        else 1 / 5 := by
    intro n
    simp only [Bot.get_referral_percentage, Bot.DEFAULT_REFERRAL_LEVELS,
      Bot.findLevel, Bot.levelMatches, Bool.and_eq_true, decide_eq_true_eq,
      eq_self_iff_true, and_true]
    norm_cast
    split_ifs <;> first | (exfalso; omega) | norm_num
  exact ⟨by simpa using hgen 10, by simpa using hgen 11,
    by simpa using hgen 1000, by simpa using hgen 0, hgen⟩

/-- C1 (bug evaluation): with the default tiers, an owner (id 2) whose
referrer (id 1) has exactly one qualifying referral, and a completed
order with spread 100, the payout credits the referrer 1/10 of a ruble
— not the 10 rubles that `spread * percentage / 100` demands for the
configured tier percentage 10. -/
theorem referral_bonus_pays_hundredth_of_tier :
    (Bot.get_user
        (Bot.process_referral_bonus Bot.bonusScenarioUsers
          (Bot.ReferralConfig.levels Bot.DEFAULT_REFERRAL_LEVELS) 2 100)
        1).map Bot.User.balance = some (1 / 10) ∧
      ((1 : ℚ) / 10) ≠ 100 * 10 / 100 := by
  constructor
  · norm_num [Bot.process_referral_bonus, Bot.bonusScenarioUsers, Bot.get_user,
      Bot.save_user, Bot.get_referral_percentage, Bot.findLevel,
      Bot.levelMatches, Bot.DEFAULT_REFERRAL_LEVELS, List.find?, List.any]
  · norm_num

namespace Bot

/-- An empty `updates` dict. -/
def noUpdates : OrderUpdates :=
  { status := none, operator_id := none, operator_username := none
    completed_at := none, spread := none }

/-- A concrete active order used by several witnesses. -/
def sampleActiveOrder : Order :=
  { id := 1, order_number := "Z00001", user_id := 7, username := "alice"
    order_type := .buy, amount := 5880, status := .active
    created_at := 0, updated_at := 0, operator_id := none
    operator_username := none, completed_at := none, spread := none }

/-- A concrete store holding just `sampleActiveOrder`, on a working disk. -/
def sampleFS : OrdersFS :=
  { doc := { orders := [sampleActiveOrder], next_id := 2 }, failWrites := false }

/-- A concrete in-progress order assigned to operator 9. -/
def sampleInProgressOrder : Order :=
  { sampleActiveOrder with
    status := .in_progress, operator_id := some 9
    operator_username := some "op" }

/-- A concrete completed order. -/
def sampleCompletedOrder : Order :=
  { sampleInProgressOrder with
    status := .completed, completed_at := some 3, spread := some 264 }

/-- A store holding just `sampleCompletedOrder`. -/
def sampleCompletedFS : OrdersFS :=
  { doc := { orders := [sampleCompletedOrder], next_id := 2 }, failWrites := false }

/-- An orders store whose disk rejects writes. -/
def failingOrdersFS : OrdersFS :=
  { doc := initOrdersData, failWrites := true }

/-- A config store whose disk rejects writes. -/
def failingConfigFS : ConfigFS :=
  { file := .corrupt, failWrites := true }

end Bot

/-- `updateFirst` finds nothing when no order carries the id, and
rebuilds the list unchanged. -/
theorem updateFirst_not_found (orders : List Bot.Order) (order_id : ℕ)
    (u : Bot.OrderUpdates) (now : ℕ)
    (h : ∀ o ∈ orders, o.id ≠ order_id) :
    Bot.updateFirst orders order_id u now = (none, orders) := by
  induction orders with
  | nil => rfl
  | cons o rest ih =>
    have ho : o.id ≠ order_id := h o (List.mem_cons_self o rest)
    have hr := ih fun x hx => h x (List.mem_cons_of_mem o hx)
    simp [Bot.updateFirst, ho, hr]

/-- C10: for an identifier carried by no order, `update_order` returns
`none` and the store — document and disk alike — is exactly as it was. -/
theorem update_order_unknown_id_is_noop (fs : Bot.OrdersFS) (order_id : ℕ)
    (u : Bot.OrderUpdates) (now : ℕ)
    (h : ∀ o ∈ (Bot.get_orders fs).orders, o.id ≠ order_id) :
    Bot.update_order fs order_id u now = (none, fs) := by
  simp [Bot.update_order, updateFirst_not_found _ _ _ _ h]

/-- Witness for C10: updating absent order 2 in a store holding only
order 1 returns `none` and leaves the store untouched. -/
theorem update_order_unknown_id_is_noop_witness :
    Bot.update_order Bot.sampleFS 2 Bot.noUpdates 0 = (none, Bot.sampleFS) :=
  update_order_unknown_id_is_noop Bot.sampleFS 2 Bot.noUpdates 0 (by decide)

/-- C3: completing an order whose status is not `in_progress` (in
particular an active one) fails with the invalid-state answer and
leaves the whole orders store unchanged. -/
theorem complete_requires_in_progress (fs : Bot.OrdersFS)
    (order_id op_id now : ℕ) (rates : Bot.Rates) (o : Bot.Order)
    (hfind : Bot.get_order fs order_id = some o)
    (hst : o.status ≠ .in_progress) :
    Bot.operator_complete_order fs order_id op_id now rates =
      (.error .invalidState, fs) := by
  simp [Bot.operator_complete_order, hfind, hst]

/-- Witness for C3: completing the active order 1 fails with
`invalidState` and changes nothing. -/
theorem complete_requires_in_progress_witness :
    Bot.operator_complete_order Bot.sampleFS 1 9 5 Bot.scenarioRates =
      (.error .invalidState, Bot.sampleFS) :=
  complete_requires_in_progress Bot.sampleFS 1 9 5 Bot.scenarioRates
    Bot.sampleActiveOrder (by decide) (by decide)

/-- C8 counterexample: on a disk that rejects writes, `save_orders` and
`save_config` both report plain success (`.ok ()`) to the caller — not
an error — and the on-disk document is silently left as it was, so the
failed write is dropped rather than surfaced. -/
theorem save_reports_success_on_failed_write :
    Bot.save_orders Bot.failingOrdersFS { orders := [], next_id := 5 } =
      (Bot.failingOrdersFS, .ok ()) ∧
    (Bot.save_orders Bot.failingOrdersFS { orders := [], next_id := 5 }).2 ≠
      .error .ioError ∧
    Bot.save_config Bot.DEFAULT_CONFIG Bot.failingConfigFS =
      (Bot.failingConfigFS, .ok ()) ∧
    (Bot.save_config Bot.DEFAULT_CONFIG Bot.failingConfigFS).2 ≠
      .error .ioError := by
  refine ⟨rfl, ?_, rfl, ?_⟩ <;> simp [Bot.save_orders, Bot.save_config,
    Bot.writeOrdersFile, Bot.writeConfigFile, Bot.failingOrdersFS,
    Bot.failingConfigFS]

/-- C8 (amended): a failed write is caught and logged inside the save:
the operation still returns success to its caller and the on-disk
document is left unchanged — the failure is swallowed, not reported. -/
theorem save_failure_swallowed (fs : Bot.OrdersFS) (d : Bot.OrdersData)
    (cfs : Bot.ConfigFS) (c : Bot.Config)
    (h1 : fs.failWrites = true) (h2 : cfs.failWrites = true) :
    Bot.save_orders fs d = (fs, .ok ()) ∧
    Bot.save_config c cfs = (cfs, .ok ()) := by
  constructor <;> simp [Bot.save_orders, Bot.save_config,
    Bot.writeOrdersFile, Bot.writeConfigFile, h1, h2]

/-- Witness for C8 (amended) on the two concrete failing stores. -/
theorem save_failure_swallowed_witness :
    Bot.save_orders Bot.failingOrdersFS { orders := [], next_id := 5 } =
      (Bot.failingOrdersFS, .ok ()) ∧
    Bot.save_config Bot.DEFAULT_CONFIG Bot.failingConfigFS =
      (Bot.failingConfigFS, .ok ()) :=
  save_failure_swallowed Bot.failingOrdersFS { orders := [], next_id := 5 }
    Bot.failingConfigFS Bot.DEFAULT_CONFIG rfl rfl

/-- C9: `load_config` returns the persisted document when the file
parses; on a missing file (and a working disk) it synthesizes, persists
and returns the default; on a corrupt file it returns the in-memory
default for that call and leaves the bad file exactly as it was. -/
theorem load_config_spec :
    (∀ (fs : Bot.ConfigFS) (c : Bot.Config),
      fs.file = .good c → Bot.load_config fs = (c, fs)) ∧
    (∀ fs : Bot.ConfigFS,
      fs.file = .corrupt → Bot.load_config fs = (Bot.DEFAULT_CONFIG, fs)) ∧
    (∀ fs : Bot.ConfigFS,
      fs.file = .absent → fs.failWrites = false →
      Bot.load_config fs =
        (Bot.DEFAULT_CONFIG,
         { file := .good Bot.DEFAULT_CONFIG, failWrites := false })) := by
  refine ⟨?_, ?_, ?_⟩
  · intro fs c h
    simp [Bot.load_config, h]
  · intro fs h
    simp [Bot.load_config, h]
  · intro fs h hw
    simp [Bot.load_config, h, Bot.save_config, Bot.writeConfigFile, hw]

/-- Witness for C9: the three branches at concrete stores. -/
theorem load_config_spec_witness :
    Bot.load_config { file := .good Bot.DEFAULT_CONFIG, failWrites := false } =
      (Bot.DEFAULT_CONFIG, { file := .good Bot.DEFAULT_CONFIG, failWrites := false }) ∧
    Bot.load_config { file := .corrupt, failWrites := false } =
      (Bot.DEFAULT_CONFIG, { file := .corrupt, failWrites := false }) ∧
    Bot.load_config { file := .absent, failWrites := false } =
      (Bot.DEFAULT_CONFIG, { file := .good Bot.DEFAULT_CONFIG, failWrites := false }) :=
  ⟨load_config_spec.1 _ Bot.DEFAULT_CONFIG rfl,
   load_config_spec.2.1 _ rfl,
   load_config_spec.2.2 _ rfl rfl⟩

/-- `updateFirst` on a list whose first id-match is `o` returns the
merged record, and every order of the rebuilt list is an old order or
that merged record. -/
theorem updateFirst_found (orders : List Bot.Order) (order_id : ℕ)
    (u : Bot.OrderUpdates) (now : ℕ) (o : Bot.Order)
    (h : orders.find? (fun x => x.id = order_id) = some o) :
    (Bot.updateFirst orders order_id u now).1 =
        some { Bot.mergeUpdates o u with updated_at := now } ∧
    ∀ x ∈ (Bot.updateFirst orders order_id u now).2,
      x ∈ orders ∨ x = { Bot.mergeUpdates o u with updated_at := now } := by
  induction orders with
  | nil => simp at h
  | cons hd rest ih =>
    by_cases hid : hd.id = order_id
    · rw [List.find?_cons_of_pos _ (by simpa using hid)] at h
      obtain rfl : hd = o := by injection h
      refine ⟨by simp [Bot.updateFirst, hid], ?_⟩
      intro x hx
      simp only [Bot.updateFirst, if_pos hid] at hx
      rcases List.mem_cons.mp hx with h1 | h1
      · exact Or.inr h1
      · exact Or.inl (List.mem_cons_of_mem _ h1)
    · rw [List.find?_cons_of_neg _ (by simpa using hid)] at h
      have hr := ih h
      refine ⟨by simp [Bot.updateFirst, hid, hr.1], ?_⟩
      intro x hx
      simp only [Bot.updateFirst, if_neg hid] at hx
      rcases List.mem_cons.mp hx with h1 | h1
      · subst h1; exact Or.inl (List.mem_cons_self _ _)
      · rcases hr.2 x h1 with h2 | h2
        · exact Or.inl (List.mem_cons_of_mem _ h2)
        · exact Or.inr h2

/-- Orders surviving `update_order` are either untouched old orders or
the merged image of the first id-match. -/
theorem update_order_shape (fs : Bot.OrdersFS) (order_id : ℕ)
    (u : Bot.OrderUpdates) (now : ℕ) :
    ∀ x ∈ ((Bot.update_order fs order_id u now).2).doc.orders,
      x ∈ fs.doc.orders ∨
        ∃ o ∈ fs.doc.orders,
          (Bot.get_orders fs).orders.find? (fun y => y.id = order_id) = some o ∧
          x = { Bot.mergeUpdates o u with updated_at := now } := by
  intro x hx
  rcases hfind : (Bot.get_orders fs).orders.find? (fun y => y.id = order_id) with _ | o
  · have hnone : ∀ o ∈ (Bot.get_orders fs).orders, o.id ≠ order_id := by
      intro o ho
      have := List.find?_eq_none.mp hfind o ho
      simpa using this
    rw [update_order_unknown_id_is_noop fs order_id u now hnone] at hx
    exact Or.inl hx
  · have hu := updateFirst_found (Bot.get_orders fs).orders order_id u now o hfind
    have hmem : o ∈ fs.doc.orders := List.mem_of_find?_eq_some hfind
    simp only [Bot.update_order, hu.1] at hx
    rcases hw : fs.failWrites with _ | _
    · simp only [Bot.save_orders, Bot.writeOrdersFile, hw, if_neg Bool.false_ne_true] at hx
      rcases hu.2 x hx with h1 | h1
      · exact Or.inl h1
      · exact Or.inr ⟨o, hmem, hfind, h1⟩
    · simp only [Bot.save_orders, Bot.writeOrdersFile, hw, if_pos rfl] at hx
      exact Or.inl hx

/-- Every order surviving `operator_take_order` is an old order or an
old *active* order re-stamped to `in_progress`. -/
theorem take_order_shape (fs : Bot.OrdersFS) (order_id op_id : ℕ)
    (name : String) (now : ℕ) :
    ∀ x ∈ ((Bot.operator_take_order fs order_id op_id name now).2).doc.orders,
      x ∈ fs.doc.orders ∨
        (x.status = .in_progress ∧
          ∃ o ∈ fs.doc.orders, x.id = o.id ∧ o.status = .active) := by
  intro x hx
  rcases hg : Bot.get_order fs order_id with _ | o
  · simp only [Bot.operator_take_order, hg] at hx
    exact Or.inl hx
  · by_cases hst : o.status = .active
    · simp only [Bot.operator_take_order, hg, hst, ne_eq, not_true_eq_false,
        if_false, reduceCtorEq] at hx
      have hx' : x ∈ ((Bot.update_order fs order_id
          { status := some .in_progress, operator_id := some (some op_id)
            operator_username := some (some name)
            completed_at := none, spread := none } now).2).doc.orders := by
        rcases hr : (Bot.update_order fs order_id
            { status := some .in_progress, operator_id := some (some op_id)
              operator_username := some (some name)
              completed_at := none, spread := none } now).1 with _ | u'
        · simpa [hr] using hx
        · simpa [hr] using hx
      rcases update_order_shape fs order_id _ now x hx' with h1 | ⟨o', ho', hfind', hxeq⟩
      · exact Or.inl h1
      · have : o' = o := by
          have : some o' = some o := hfind'.symm.trans hg
          injection this
        subst this
        refine Or.inr ⟨by simp [hxeq, Bot.mergeUpdates], o', ho', ?_, hst⟩
        simp [hxeq, Bot.mergeUpdates]
    · simp only [Bot.operator_take_order, hg, ne_eq, hst, not_false_eq_true,
        if_true] at hx
      exact Or.inl hx

/-- Every order surviving `operator_complete_order` is an old order or
an old *in-progress* order re-stamped to `completed`. -/
theorem complete_order_shape (fs : Bot.OrdersFS) (order_id op_id : ℕ)
    (now : ℕ) (rates : Bot.Rates) :
    ∀ x ∈ ((Bot.operator_complete_order fs order_id op_id now rates).2).doc.orders,
      x ∈ fs.doc.orders ∨
        (x.status = .completed ∧
          ∃ o ∈ fs.doc.orders, x.id = o.id ∧ o.status = .in_progress) := by
  intro x hx
  rcases hg : Bot.get_order fs order_id with _ | o
  · simp only [Bot.operator_complete_order, hg] at hx
    exact Or.inl hx
  · by_cases hst : o.status = .in_progress
    · by_cases hop : o.operator_id = some op_id
      · simp only [Bot.operator_complete_order, hg, hst, hop, ne_eq,
          not_true_eq_false, if_false, reduceCtorEq] at hx
        have hx' : x ∈ ((Bot.update_order fs order_id
            { status := some .completed, operator_id := none
              operator_username := none, completed_at := some (some now)
              spread := some (some (Bot.helpers_calculate_spread o.amount
                o.order_type rates)) } now).2).doc.orders := by
          rcases hr : (Bot.update_order fs order_id
              { status := some .completed, operator_id := none
                operator_username := none, completed_at := some (some now)
                spread := some (some (Bot.helpers_calculate_spread o.amount
                  o.order_type rates)) } now).1 with _ | u'
          · simpa [hr] using hx
          · simpa [hr] using hx
        rcases update_order_shape fs order_id _ now x hx' with h1 | ⟨o', ho', hfind', hxeq⟩
        · exact Or.inl h1
        · have : o' = o := by
            have : some o' = some o := hfind'.symm.trans hg
            injection this
          subst this
          refine Or.inr ⟨by simp [hxeq, Bot.mergeUpdates], o', ho', ?_, hst⟩
          simp [hxeq, Bot.mergeUpdates]
      · simp only [Bot.operator_complete_order, hg, hst, ne_eq, hop,
          not_true_eq_false, if_false, not_false_eq_true, if_true] at hx
        exact Or.inl hx
    · simp only [Bot.operator_complete_order, hg, ne_eq, hst,
        not_false_eq_true, if_true] at hx
      exact Or.inl hx

/-- C4: the only status transitions the two lifecycle operations permit
are `active → in_progress` (take, which stamps the operator fields) and
`in_progress → completed` (complete); taking a non-active order fails
with the invalid-state answer and changes nothing; completing an active
order fails likewise (no skipping); a completed order is terminal under
both operations; and in general every order surviving either operation
is an untouched old order or the image of one legal edge. -/
theorem order_lifecycle_state_machine :
    (∀ (fs : Bot.OrdersFS) (order_id op_id : ℕ) (name : String) (now : ℕ)
        (o : Bot.Order),
      Bot.get_order fs order_id = some o → o.status ≠ .active →
      Bot.operator_take_order fs order_id op_id name now =
        (.error .invalidState, fs)) ∧
    (∀ (fs : Bot.OrdersFS) (order_id op_id : ℕ) (name : String) (now : ℕ)
        (o : Bot.Order),
      Bot.get_order fs order_id = some o → o.status = .active →
      ∃ o', (Bot.operator_take_order fs order_id op_id name now).1 = .ok o' ∧
        o'.id = o.id ∧ o'.status = .in_progress ∧
        o'.operator_id = some op_id ∧ o'.operator_username = some name) ∧
    (∀ (fs : Bot.OrdersFS) (order_id op_id now : ℕ) (rates : Bot.Rates)
        (o : Bot.Order),
      Bot.get_order fs order_id = some o → o.status = .active →
      Bot.operator_complete_order fs order_id op_id now rates =
        (.error .invalidState, fs)) ∧
    (∀ (fs : Bot.OrdersFS) (order_id op_id : ℕ) (name : String) (now : ℕ)
        (rates : Bot.Rates) (o : Bot.Order),
      Bot.get_order fs order_id = some o → o.status = .completed →
      Bot.operator_take_order fs order_id op_id name now =
          (.error .invalidState, fs) ∧
        Bot.operator_complete_order fs order_id op_id now rates =
          (.error .invalidState, fs)) ∧
    (∀ (fs : Bot.OrdersFS) (order_id op_id : ℕ) (name : String) (now : ℕ),
      ∀ x ∈ ((Bot.operator_take_order fs order_id op_id name now).2).doc.orders,
        x ∈ fs.doc.orders ∨
          (x.status = .in_progress ∧
            ∃ o ∈ fs.doc.orders, x.id = o.id ∧ o.status = .active)) ∧
    (∀ (fs : Bot.OrdersFS) (order_id op_id now : ℕ) (rates : Bot.Rates),
      ∀ x ∈ ((Bot.operator_complete_order fs order_id op_id now rates).2).doc.orders,
        x ∈ fs.doc.orders ∨
          (x.status = .completed ∧
            ∃ o ∈ fs.doc.orders, x.id = o.id ∧ o.status = .in_progress)) := by
  refine ⟨?_, ?_, ?_, ?_, take_order_shape, complete_order_shape⟩
  · intro fs order_id op_id name now o hg hst
    simp [Bot.operator_take_order, hg, hst]
  · intro fs order_id op_id name now o hg hst
    have hfind : (Bot.get_orders fs).orders.find? (fun y => y.id = order_id)
        = some o := hg
    have hu := updateFirst_found (Bot.get_orders fs).orders order_id
      { status := some .in_progress, operator_id := some (some op_id)
        operator_username := some (some name)
        completed_at := none, spread := none } now o hfind
    refine ⟨{ Bot.mergeUpdates o
        { status := some .in_progress, operator_id := some (some op_id)
          operator_username := some (some name)
          completed_at := none, spread := none } with updated_at := now },
      ?_, by simp [Bot.mergeUpdates], by simp [Bot.mergeUpdates],
      by simp [Bot.mergeUpdates], by simp [Bot.mergeUpdates]⟩
    simp [Bot.operator_take_order, hg, hst, Bot.update_order, hu.1]
  · intro fs order_id op_id now rates o hg hst
    have : o.status ≠ .in_progress := by simp [hst]
    simp [Bot.operator_complete_order, hg, this]
  · intro fs order_id op_id name now rates o hg hst
    constructor
    · simp [Bot.operator_take_order, hg, show o.status ≠ .active by simp [hst]]
    · simp [Bot.operator_complete_order, hg,
        show o.status ≠ .in_progress by simp [hst]]

/-- Witness for C4: taking the in-progress order 1 and completing the
active order 1 both fail with `invalidState` and leave the store as it
was; taking the active order 1 yields it as in-progress with the
operator stamped. -/
theorem order_lifecycle_state_machine_witness :
    Bot.operator_take_order
        { doc := { orders := [Bot.sampleInProgressOrder], next_id := 2 },
          failWrites := false } 1 9 "op" 5 =
      (.error .invalidState,
       { doc := { orders := [Bot.sampleInProgressOrder], next_id := 2 },
         failWrites := false }) ∧
    Bot.operator_complete_order Bot.sampleFS 1 9 5 Bot.scenarioRates =
      (.error .invalidState, Bot.sampleFS) ∧
    ∃ o', (Bot.operator_take_order Bot.sampleFS 1 9 "op" 5).1 = .ok o' ∧
      o'.id = 1 ∧ o'.status = .in_progress ∧
      o'.operator_id = some 9 ∧ o'.operator_username = some "op" :=
  ⟨order_lifecycle_state_machine.1 _ 1 9 "op" 5 Bot.sampleInProgressOrder
      (by decide) (by decide),
   order_lifecycle_state_machine.2.2.1 Bot.sampleFS 1 9 5 Bot.scenarioRates
      Bot.sampleActiveOrder (by decide) (by decide),
   order_lifecycle_state_machine.2.1 Bot.sampleFS 1 9 "op" 5
      Bot.sampleActiveOrder (by decide) (by decide)⟩

/-- `digitsVal` inverts `decimalDigitsAux` when the fuel suffices. -/
theorem digitsVal_decimalDigitsAux :
    ∀ fuel n : ℕ, n ≤ fuel →
      Bot.digitsVal (Bot.decimalDigitsAux fuel n) = n := by
  intro fuel
  induction fuel with
  | zero =>
    intro n hn
    interval_cases n
    rfl
  | succ fuel ih =>
    intro n hn
    match n with
    | 0 => rfl
    | m + 1 =>
      have hdiv : (m + 1) / 10 ≤ fuel := by omega
      simp only [Bot.decimalDigitsAux, Bot.digitsVal]
      rw [ih _ hdiv]
      omega

/-- A run of zero digits contributes nothing to `digitsVal`. -/
theorem digitsVal_replicate_zero (k : ℕ) :
    Bot.digitsVal (List.replicate k 0) = 0 := by
  induction k with
  | zero => rfl
  | succ k ih => simp only [List.replicate, Bot.digitsVal, ih]

/-- Zero-padding at the most-significant end preserves `digitsVal`. -/
theorem digitsVal_append_zeros (l : List ℕ) (k : ℕ) :
    Bot.digitsVal (l ++ List.replicate k 0) = Bot.digitsVal l := by
  induction l with
  | nil => simp [Bot.digitsVal, digitsVal_replicate_zero]
  | cons d rest ih => simp only [List.cons_append, Bot.digitsVal, List.append_eq, ih]

/-- Every digit produced by `decimalDigitsAux` is below 10. -/
theorem decimalDigitsAux_lt_ten :
    ∀ fuel n : ℕ, ∀ d ∈ Bot.decimalDigitsAux fuel n, d < 10 := by
  intro fuel
  induction fuel with
  | zero => intro n d hd; simp [Bot.decimalDigitsAux] at hd
  | succ fuel ih =>
    intro n d hd
    match n with
    | 0 => simp [Bot.decimalDigitsAux] at hd
    | m + 1 =>
      simp only [Bot.decimalDigitsAux, List.mem_cons] at hd
      rcases hd with h | h
      · omega
      · exact ih _ d h

/-- `Nat.digitChar` is injective on digits. -/
theorem digitChar_inj_on_digits :
    ∀ a < 10, ∀ b < 10, Nat.digitChar a = Nat.digitChar b → a = b := by
  decide

/-- Mapping `Nat.digitChar` over digit lists is injective. -/
theorem map_digitChar_inj :
    ∀ l1 l2 : List ℕ, (∀ d ∈ l1, d < 10) → (∀ d ∈ l2, d < 10) →
      l1.map Nat.digitChar = l2.map Nat.digitChar → l1 = l2 := by
  intro l1
  induction l1 with
  | nil =>
    intro l2 _ _ h
    cases l2 with
    | nil => rfl
    | cons b bs => simp at h
  | cons a as ih =>
    intro l2 h1 h2 h
    cases l2 with
    | nil => simp at h
    | cons b bs =>
      simp only [List.map_cons, List.cons.injEq] at h
      have ha : a = b := digitChar_inj_on_digits a
        (h1 a (List.mem_cons_self a as)) b (h2 b (List.mem_cons_self b bs)) h.1
      have hrest := ih bs (fun d hd => h1 d (List.mem_cons_of_mem a hd))
        (fun d hd => h2 d (List.mem_cons_of_mem b hd)) h.2
      rw [ha, hrest]

/-- The padded digit string of an identifier determines the identifier:
`orderNumberOf` is injective, so distinct ids give distinct order
numbers. -/
theorem orderNumberOf_injective : Function.Injective Bot.orderNumberOf := by
  intro m n h
  simp only [Bot.orderNumberOf] at h
  injection h with hdata
  simp only [List.cons.injEq, true_and] at hdata
  have hdm : ∀ d ∈ (Bot.decimalDigits m ++
      List.replicate (5 - (Bot.decimalDigits m).length) 0).reverse, d < 10 := by
    intro d hd
    rcases List.mem_append.mp (List.mem_reverse.mp hd) with h1 | h1
    · exact decimalDigitsAux_lt_ten m m d h1
    · have h0 : d = 0 := List.eq_of_mem_replicate h1
      omega
  have hdn : ∀ d ∈ (Bot.decimalDigits n ++
      List.replicate (5 - (Bot.decimalDigits n).length) 0).reverse, d < 10 := by
    intro d hd
    rcases List.mem_append.mp (List.mem_reverse.mp hd) with h1 | h1
    · exact decimalDigitsAux_lt_ten n n d h1
    · have h0 : d = 0 := List.eq_of_mem_replicate h1
      omega
  have hrevs :
      (Bot.decimalDigits m ++
        List.replicate (5 - (Bot.decimalDigits m).length) 0).reverse =
      (Bot.decimalDigits n ++
        List.replicate (5 - (Bot.decimalDigits n).length) 0).reverse :=
    map_digitChar_inj _ _ hdm hdn hdata
  have hpads :
      Bot.decimalDigits m ++
        List.replicate (5 - (Bot.decimalDigits m).length) 0 =
      Bot.decimalDigits n ++
        List.replicate (5 - (Bot.decimalDigits n).length) 0 :=
    List.reverse_injective hrevs
  have hm : Bot.digitsVal (Bot.decimalDigits m) = m :=
    digitsVal_decimalDigitsAux m m le_rfl
  have hn : Bot.digitsVal (Bot.decimalDigits n) = n :=
    digitsVal_decimalDigitsAux n n le_rfl
  calc m = Bot.digitsVal (Bot.decimalDigits m ++
        List.replicate (5 - (Bot.decimalDigits m).length) 0) := by
        rw [digitsVal_append_zeros, hm]
    _ = Bot.digitsVal (Bot.decimalDigits n ++
        List.replicate (5 - (Bot.decimalDigits n).length) 0) := by rw [hpads]
    _ = n := by rw [digitsVal_append_zeros, hn]

/-- Session invariant: starting from any store on a working disk, a run
of `create_order` calls appends orders whose ids are the consecutive
block starting at the stored `next_id`, with order numbers derived by
`orderNumberOf`, and bumps `next_id` by the number of calls. -/
theorem createAll_spec :
    ∀ (reqs : List Bot.CreateReq) (fs : Bot.OrdersFS), fs.failWrites = false →
      (Bot.createAll fs reqs).failWrites = false ∧
      (Bot.createAll fs reqs).doc.next_id = fs.doc.next_id + reqs.length ∧
      (Bot.createAll fs reqs).doc.orders.map Bot.Order.id
        = fs.doc.orders.map Bot.Order.id
          ++ List.range' fs.doc.next_id reqs.length ∧
      (Bot.createAll fs reqs).doc.orders.map Bot.Order.order_number
        = fs.doc.orders.map Bot.Order.order_number
          ++ (List.range' fs.doc.next_id reqs.length).map Bot.orderNumberOf := by
  intro reqs
  induction reqs with
  | nil =>
    intro fs h
    simp [Bot.createAll, h]
  | cons r rs ih =>
    intro fs h
    have hunfold : Bot.createAll fs (r :: rs)
        = Bot.createAll (Bot.create_order fs r).2 rs := rfl
    have hfw : (Bot.create_order fs r).2.failWrites = false := by
      simp [Bot.create_order, Bot.get_orders, Bot.save_orders,
        Bot.writeOrdersFile, h]
    have hnext : (Bot.create_order fs r).2.doc.next_id = fs.doc.next_id + 1 := by
      simp [Bot.create_order, Bot.get_orders, Bot.save_orders,
        Bot.writeOrdersFile, h]
    have hids : (Bot.create_order fs r).2.doc.orders.map Bot.Order.id
        = fs.doc.orders.map Bot.Order.id ++ [fs.doc.next_id] := by
      simp [Bot.create_order, Bot.get_orders, Bot.save_orders,
        Bot.writeOrdersFile, h]
    have hnums : (Bot.create_order fs r).2.doc.orders.map Bot.Order.order_number
        = fs.doc.orders.map Bot.Order.order_number
          ++ [Bot.orderNumberOf fs.doc.next_id] := by
      simp [Bot.create_order, Bot.get_orders, Bot.save_orders,
        Bot.writeOrdersFile, h]
    obtain ⟨ih1, ih2, ih3, ih4⟩ := ih (Bot.create_order fs r).2 hfw
    rw [hnext] at ih2 ih3 ih4
    rw [hids] at ih3
    rw [hnums] at ih4
    refine ⟨by rw [hunfold]; exact ih1, ?_, ?_, ?_⟩
    · rw [hunfold, ih2]
      simp only [List.length_cons]
      omega
    · rw [hunfold, ih3, List.append_assoc, List.singleton_append,
        List.length_cons, List.range'_succ]
    · rw [hunfold, ih4, List.append_assoc, List.singleton_append,
        List.length_cons, List.range'_succ, List.map_cons]

/-- C5: in a session started from the initial store, sequential
`create_order` calls allocate the identifiers 1, 2, 3, … — the stored
`next_id`, bumped after each use — so the id list is strictly
increasing and the derived order numbers are pairwise distinct; in
particular three creations yield ids 1, 2, 3 and numbers
`Z00001`, `Z00002`, `Z00003` whatever the order types and amounts. -/
theorem create_order_ids_and_numbers :
    (∀ reqs : List Bot.CreateReq,
      (Bot.createAll Bot.initOrdersFS reqs).doc.orders.map Bot.Order.id
        = List.range' 1 reqs.length ∧
      ((Bot.createAll Bot.initOrdersFS reqs).doc.orders.map
        Bot.Order.id).Pairwise (· < ·) ∧
      ((Bot.createAll Bot.initOrdersFS reqs).doc.orders.map
        Bot.Order.order_number).Nodup) ∧
    (∀ r1 r2 r3 : Bot.CreateReq,
      (Bot.createAll Bot.initOrdersFS [r1, r2, r3]).doc.orders.map
        Bot.Order.id = [1, 2, 3] ∧
      (Bot.createAll Bot.initOrdersFS [r1, r2, r3]).doc.orders.map
        Bot.Order.order_number = ["Z00001", "Z00002", "Z00003"]) := by
  have hmain : ∀ reqs : List Bot.CreateReq,
      (Bot.createAll Bot.initOrdersFS reqs).doc.orders.map Bot.Order.id
        = List.range' 1 reqs.length ∧
      (Bot.createAll Bot.initOrdersFS reqs).doc.orders.map
        Bot.Order.order_number
        = (List.range' 1 reqs.length).map Bot.orderNumberOf := by
    intro reqs
    obtain ⟨-, -, h3, h4⟩ := createAll_spec reqs Bot.initOrdersFS rfl
    constructor
    · simpa [Bot.initOrdersFS, Bot.initOrdersData] using h3
    · simpa [Bot.initOrdersFS, Bot.initOrdersData] using h4
  refine ⟨?_, ?_⟩
  · intro reqs
    obtain ⟨h3, h4⟩ := hmain reqs
    refine ⟨h3, ?_, ?_⟩
    · rw [h3]
      exact List.pairwise_lt_range' 1 reqs.length
    · rw [h4]
      exact (List.nodup_range' 1 reqs.length).map orderNumberOf_injective
  · intro r1 r2 r3
    obtain ⟨h3, h4⟩ := hmain [r1, r2, r3]
    constructor
    · simpa using h3
    · rw [h4]
      simp only [List.length_cons, List.length_nil]
      decide
